import Mathlib

/-!
Verification of the `glu` GitLab user-administration CLI (`src/main.go`).

The Go program is shallowly embedded below.  HTTP traffic is modelled by an
explicit server function (page number to response); JSON decoding is modelled
as already performed, so response bodies are user lists; console printing is
modelled as the list of printed lines; `log.Fatalf` / a skipped network call
are modelled by an explicit outcome type.  Go `int` is modelled as `Int`
(header values realistically never approach the 64-bit range, so overflow in
`strconv.Atoi` is not modelled).
-/

namespace Glu

/-- One element of the `GitlabUsers` slice type of `main.go` (lines 24-38).
`time.Time` fields are kept as uninterpreted strings: no claim inspects
them, and the program itself only decodes and reprints them. -/
structure GitlabUser where
  ID : Int
  Name : String
  Username : String
  State : String
  CreatedAt : String
  PublicEmail : String
  LastSignInAt : String
  ConfirmedAt : String
  LastActivityOn : String
  Email : String
  CurrentSignInAt : String
  External : Bool
  IsAdmin : Bool
deriving Repr, DecidableEq

/-- The slice type `GitlabUsers` (line 24). -/
abbrev GitlabUsers := List GitlabUser

/-- The comparator `GitlabUsers.Less` (lines 50-52): `s[i].ID < s[j].ID`. -/
def usersLess (a b : GitlabUser) : Bool := a.ID < b.ID

/-- `sort.Sort` applied to `GitlabUsers` (line 214 / 222).  Go's
`sort.Sort` reorders by swaps until no adjacent pair has `Less(j, i)`
for `i < j`; we model it as a comparison sort under the non-strict
relation `!Less b a` induced by the program's comparator. -/
def sortUsers (u : GitlabUsers) : GitlabUsers :=
  u.mergeSort (fun a b => !usersLess b a)

/-- A response of the listing endpoint: the decoded JSON body plus the raw
string values of the `X-Page` and `X-Total-Pages` headers (read at
`response.Header[...][0]`, lines 70-72). -/
structure PageResponse where
  body : GitlabUsers
  xPage : String
  xTotalPages : String

/-- Digit-string parsing used by `strconv.Atoi`: all characters must be
decimal digits and there must be at least one. -/
def digitsToNat (l : List Char) : Option Nat :=
  if l = [] then none
  else if l.all (fun c => 48 ≤ c.toNat && c.toNat ≤ 57) then
    some (l.foldl (fun a c => a * 10 + (c.toNat - 48)) 0)
  else none

/-- `strconv.Atoi` (lines 70, 72): an optional sign followed by one or
more decimal digits; anything else is an error (`none`). -/
def goAtoi (s : String) : Option Int :=
  match s.toList with
  | [] => none
  | c :: rest =>
    if c = '+' then (digitsToNat rest).map Int.ofNat
    else if c = '-' then (digitsToNat rest).map (fun n => -(Int.ofNat n))
    else (digitsToNat (c :: rest)).map Int.ofNat

/-- The page loop of `getUsers` (lines 75-86):
`for ; currentPage < totalPages; currentPage++` fetches page
`currentPage + 1` and appends its decoded body to the accumulator. -/
def getUsersLoop (fetchBody : Int → GitlabUsers) (acc : GitlabUsers)
    (currentPage totalPages : Int) : GitlabUsers :=
  if currentPage < totalPages then
    getUsersLoop fetchBody (acc ++ fetchBody (currentPage + 1)) (currentPage + 1) totalPages
  else acc
termination_by (totalPages - currentPage).toNat
decreasing_by omega

/-- The sequence of page numbers requested by the loop of lines 75-86,
in request order (used to reason about how many extra GETs are issued). -/
def getUsersLoopPages (currentPage totalPages : Int) : List Int :=
  if currentPage < totalPages then
    (currentPage + 1) :: getUsersLoopPages (currentPage + 1) totalPages
  else []
termination_by (totalPages - currentPage).toNat
decreasing_by omega

/-- `getUsers` (lines 60-88).  The network is modelled by `server`, which maps
the token, the `active` flag and the requested page number to the response
(the URL of line 62/77 varies exactly in those three positions).  The first
GET requests page 1; `X-Page` and `X-Total-Pages` of that first response are
parsed with `strconv.Atoi` (a parse failure panics via `check`, modelled as
`none`); the loop then fetches the remaining pages, whose headers are
ignored, and appends their bodies. -/
def getUsers (t : String) (a : Bool) (server : String → Bool → Int → PageResponse) :
    Option GitlabUsers :=
  let r1 := server t a 1
  match goAtoi r1.xPage, goAtoi r1.xTotalPages with
  | some currentPage, some totalPages =>
    some (getUsersLoop (fun p => (server t a p).body) r1.body currentPage totalPages)
  | _, _ => none

/-- `strings.Contains(hay, needle)` on the character level: `needle` is a
(possibly empty) contiguous run somewhere inside `hay`.  Checked by trying
every suffix of `hay` for `needle` as a prefix. -/
def listContainsSub (needle : List Char) : List Char → Bool
  | [] => needle.isEmpty
  | c :: rest => needle.isPrefixOf (c :: rest) || listContainsSub needle rest

/-- `strings.Contains` (line 110), on Lean strings. -/
def goContains (hay needle : String) : Bool :=
  listContainsSub needle.toList hay.toList

/-- The match condition of line 110: needle contained in `Name`, or in
`Username`, or in `Email`. -/
def matchesUser (s : String) (u : GitlabUser) : Bool :=
  goContains u.Name s || goContains u.Username s || goContains u.Email s

/-- The local `foundUser` struct of `searchUsers` (lines 102-107). -/
structure FoundUser where
  Name : String
  ID : Int
  Username : String
  Email : String
deriving Repr, DecidableEq

/-- The accumulation loop of `searchUsers` (lines 108-118): walk the input
slice in order and append a projected `foundUser` for every match. -/
def searchUsers (s : String) (u : GitlabUsers) : List FoundUser :=
  u.foldl
    (fun acc v =>
      if matchesUser s v then
        acc ++ [{ Name := v.Name, ID := v.ID, Username := v.Username, Email := v.Email }]
      else acc)
    []

/-- One output row of line 123: `fmt.Printf("%v \t%v \t%v \t%v\n", ID, Name,
Username, Email)`. -/
def foundUserRow (f : FoundUser) : String :=
  toString f.ID ++ " \t" ++ f.Name ++ " \t" ++ f.Username ++ " \t" ++ f.Email

/-- The lines printed by `searchUsers` (lines 120-127): one row per found
user if any, otherwise the single fixed message. -/
def searchUsersOutput (s : String) (u : GitlabUsers) : List String :=
  let foundUsers := searchUsers s u
  if foundUsers.length > 0 then foundUsers.map foundUserRow
  else ["No users found"]

/-- ASCII letter, i.e. one character of the class `[A-Za-z]`. -/
def isAlphaChar (c : Char) : Bool :=
  (65 ≤ c.toNat && c.toNat ≤ 90) || (97 ≤ c.toNat && c.toNat ≤ 122)

/-- ASCII digit `[0-9]`. -/
def isDigitChar (c : Char) : Bool := 48 ≤ c.toNat && c.toNat ≤ 57

/-- One character of the class `[a-zA-Z0-9]`. -/
def isAlnumChar (c : Char) : Bool := isAlphaChar c || isDigitChar c

/-- The username regex `^[A-Za-z]+$` of line 149: one or more ASCII
letters and nothing else. -/
def usernameOk (s : String) : Bool :=
  !s.toList.isEmpty && s.toList.all isAlphaChar

/-- One character of the local-part class of the email regex (line 156):
`[a-zA-Z0-9.!#$%&'*+/=?^_` followed by backtick, braces, `|`, `~`, `-`]`.
The quote, slash, backtick and brace characters are written via their
code points. -/
def isLocalChar (c : Char) : Bool :=
  isAlnumChar c ||
    ([46, 33, 35, 36, 37, 38, 39, 42, 43, 47, 61, 63, 94, 95, 96, 123, 124, 125, 126, 45].contains c.toNat)

/-- One character of the domain interior class `[a-zA-Z0-9-]`. -/
def isHostChar (c : Char) : Bool := isAlnumChar c || c.toNat = 45

/-- One domain label of the email regex:
`[a-zA-Z0-9](?:[a-zA-Z0-9-]{0,61}[a-zA-Z0-9])?` — a leading alphanumeric,
optionally followed by up to 61 interior `[a-zA-Z0-9-]` characters and a
final alphanumeric. -/
def labelOk : List Char → Bool
  | [] => false
  | c :: rest =>
    isAlnumChar c &&
      (rest.isEmpty ||
        (decide (rest.length ≤ 62) && rest.dropLast.all isHostChar &&
          isAlnumChar (rest.getLastD c)))

/-- The domain part of the email regex: a label followed by zero or more
`.`-label groups; since labels contain no dot, this is exactly "every
dot-separated piece is a valid label". -/
def domainOk (d : List Char) : Bool :=
  (d.splitOn '.').all labelOk

/-- The email regex `rxEmail` of line 156: a non-empty local part over the
local class, one `@` (the only `@` in the string, as `@` is in no class),
then the domain.  Splitting at `@` must yield exactly two pieces. -/
def emailOk (s : String) : Bool :=
  match s.toList.splitOn '@' with
  | [lp, dom] => !lp.isEmpty && lp.all isLocalChar && domainOk dom
  | _ => false

/-- `strings.Replace(s, "\n", "", -1)` (lines 138/142/146): every newline
removed. -/
def stripNewlines (s : String) : String :=
  ⟨s.toList.filter (fun c => c ≠ '\n')⟩

/-- Outcome of `createUser` after the console reads: either `log.Fatalf`
with the given message (process aborts, no POST), or the POST of line 171
is issued with the given payload fields. -/
inductive CreateOutcome where
  | fatal (msg : String)
  | posted (email name username resetPassword : String)
deriving Repr, DecidableEq

/-- `createUser` (lines 132-175) after the three console reads: strip
newlines from each input, validate the username against `^[A-Za-z]+$`
(fatal naming the value on violation, line 151), then validate the email
(length over 254 bytes or regex mismatch is fatal naming the value,
line 158), then POST the JSON payload `{email, name, username,
reset_password: "true"}`. -/
def createUser (rawName rawEmail rawUserName : String) : CreateOutcome :=
  let inputName := stripNewlines rawName
  let inputEmail := stripNewlines rawEmail
  let inputUserName := stripNewlines rawUserName
  if !usernameOk inputUserName then
    .fatal ("error: " ++ inputUserName ++ " is not a valid username")
  else if inputEmail.utf8ByteSize > 254 || !emailOk inputEmail then
    .fatal ("error: " ++ inputEmail ++ " is not a valid email address")
  else
    .posted inputEmail inputName inputUserName "true"

/-- The lines printed by `blockUser` (lines 183-196) as a function of the
status line `resp.Status` of the block POST: a four-way switch on the
exact status string, each branch printing its message and then the raw
status line. -/
def blockUserOutput (u status : String) : List String :=
  if status = "201 Created" then
    ["UserID " ++ u ++ " has been blocked", status]
  else if status = "404 Not Found" then
    ["ERROR: Unable to find UserID " ++ u, status]
  else if status = "403 Forbidden" then
    ["ERROR: UserID " ++ u ++ " is already blocked", status]
  else
    ["Error: something went wrong while trying to block UserID " ++ u, status]

/-- The four actions `main` can take (lines 212-224). -/
inductive Action where
  | searchAction (token : String) (active : Bool) (text : String)
  | blockAction (token : String) (id : String)
  | createAction (token : String)
  | listAction (token : String) (active : Bool)
deriving Repr, DecidableEq

/-- The dispatch of `main` (lines 212-224): search if `-s` is non-empty,
else block if `-b` is non-empty, else create if `-c` is set, else fetch,
sort and display all users. -/
def mainDispatch (token searchText : String) (create active : Bool) (bu : String) : Action :=
  if searchText ≠ "" then .searchAction token active searchText
  else if bu ≠ "" then .blockAction token bu
  else if create then .createAction token
  else .listAction token active

/-- The projection of lines 111-116, from a user to the printed view. -/
def toFoundUser (v : GitlabUser) : FoundUser :=
  { Name := v.Name, ID := v.ID, Username := v.Username, Email := v.Email }

/-- A concrete user record, for instantiating theorems with hypotheses. -/
def sampleUser (id : Int) (name username email : String) : GitlabUser :=
  { ID := id, Name := name, Username := username, State := "active", CreatedAt := "",
    PublicEmail := "", LastSignInAt := "", ConfirmedAt := "", LastActivityOn := "",
    Email := email, CurrentSignInAt := "", External := false, IsAdmin := false }

/-- A concrete user collection, for instantiating theorems. -/
def sampleUsers : GitlabUsers :=
  [sampleUser 1 "Alice Jones" "alice" "alice@example.com",
   sampleUser 2 "Jane Smith" "jane" "jane.smith@x.com"]

/-- A concrete two-page listing endpoint, for instantiating the pagination
theorems: page 1 carries headers `X-Page: 1`, `X-Total-Pages: 2`. -/
def sampleServer : String → Bool → Int → PageResponse :=
  fun _ _ p =>
    if p = 1 then
      { body := [sampleUser 2 "Jane Smith" "jane" "jane.smith@x.com"],
        xPage := "1", xTotalPages := "2" }
    else
      { body := [sampleUser 1 "Alice Jones" "alice" "alice@example.com"],
        xPage := "2", xTotalPages := "2" }

/-! ### Helper lemmas -/

/-- Closed form of the page loop: starting at `currentPage = c` with total
`T`, the loop appends the bodies of pages `c+1, …, T` to the accumulator. -/
theorem getUsersLoop_eq (fetchBody : Int → GitlabUsers) :
    ∀ (k : Nat) (acc : GitlabUsers) (c T : Int), (T - c).toNat = k →
      getUsersLoop fetchBody acc c T =
        acc ++ ((List.range k).map (fun i : Nat => fetchBody (c + 1 + (i : Int)))).flatten := by
  intro k
  induction k with
  | zero =>
    intro acc c T hk
    rw [getUsersLoop]
    have h : ¬ c < T := by omega
    simp [h]
  | succ m ih =>
    intro acc c T hk
    rw [getUsersLoop]
    have hc : c < T := by omega
    rw [if_pos hc, ih (acc ++ fetchBody (c + 1)) (c + 1) T (by omega),
      List.range_succ_eq_map]
    have hfun : (fun i : Nat => fetchBody (c + 1 + 1 + (i : Int))) =
        (fun i : Nat => fetchBody (c + 1 + ((Nat.succ i : Nat) : Int))) := by
      funext i
      congr 1
      push_cast
      ring
    simp only [List.map_cons, List.map_map, List.flatten_cons, List.append_assoc,
      Function.comp_def]
    rw [show (fun i : Nat => fetchBody (c + 1 + ((Nat.succ i : Nat) : Int))) =
        (fun i : Nat => fetchBody (c + 1 + 1 + (i : Int))) from hfun.symm]
    norm_num

/-- Closed form of the requested-page sequence: pages `c+1, …, T`. -/
theorem getUsersLoopPages_eq :
    ∀ (k : Nat) (c T : Int), (T - c).toNat = k →
      getUsersLoopPages c T = (List.range k).map (fun i : Nat => c + 1 + (i : Int)) := by
  intro k
  induction k with
  | zero =>
    intro c T hk
    rw [getUsersLoopPages]
    have h : ¬ c < T := by omega
    simp [h]
  | succ m ih =>
    intro c T hk
    rw [getUsersLoopPages]
    have hc : c < T := by omega
    rw [if_pos hc, ih (c + 1) T (by omega), List.range_succ_eq_map]
    have hfun : (fun i : Nat => c + 1 + 1 + (i : Int)) =
        (fun i : Nat => c + 1 + ((Nat.succ i : Nat) : Int)) := by
      funext i
      push_cast
      ring
    simp only [List.map_cons, List.map_map, Function.comp_def]
    rw [show (fun i : Nat => c + 1 + ((Nat.succ i : Nat) : Int)) =
        (fun i : Nat => c + 1 + 1 + (i : Int)) from hfun.symm]
    norm_num

/-! ### Claims about the sorter -/

/-- C5: after sorting with the program's comparator (`GitlabUsers.Less`,
i.e. `ID <`), every adjacent pair `(a, b)` of the result satisfies
`a.ID ≤ b.ID`. -/
theorem sortUsers_sorted_by_id (u : GitlabUsers) :
    List.Chain' (fun a b => a.ID ≤ b.ID) (sortUsers u) := by
  have htrans : ∀ a b c : GitlabUser, (!usersLess b a) = true →
      (!usersLess c b) = true → (!usersLess c a) = true := by
    intro a b c hab hbc
    simp only [usersLess, Bool.not_eq_true', decide_eq_false_iff_not, not_lt] at hab hbc ⊢
    omega
  have htotal : ∀ a b : GitlabUser, ((!usersLess b a) || (!usersLess a b)) = true := by
    intro a b
    simp only [usersLess, Bool.or_eq_true, Bool.not_eq_true', decide_eq_false_iff_not, not_lt]
    omega
  have hp := List.sorted_mergeSort htrans htotal u
  have hq : List.Pairwise (fun a b : GitlabUser => a.ID ≤ b.ID) (sortUsers u) := by
    rw [sortUsers]
    refine hp.imp ?_
    intro a b h
    simp only [usersLess, Bool.not_eq_true', decide_eq_false_iff_not, not_lt] at h
    omega
  exact hq.chain'

/-- C8: the sort is a permutation — the sorted result has exactly the same
multiset of users as the input. -/
theorem sortUsers_permutation (u : GitlabUsers) : (sortUsers u).Perm u :=
  List.mergeSort_perm u _

/-! ### Claims about pagination -/

/-- C9: the page loop terminates for every pair of parsed header values
(`getUsersLoopPages` is total): it issues exactly `max 0 (totalPages −
currentPage)` additional requests, the requested page numbers strictly
increase, and when `totalPages ≤ currentPage` no additional request is
issued at all. -/
theorem getUsersLoop_request_count (c T : Int) :
    (getUsersLoopPages c T).length = (T - c).toNat ∧
    List.Pairwise (fun p q => p < q) (getUsersLoopPages c T) ∧
    (T ≤ c → getUsersLoopPages c T = []) := by
  have he := getUsersLoopPages_eq (T - c).toNat c T rfl
  refine ⟨by rw [he]; simp, ?_, ?_⟩
  · rw [he]
    rw [List.pairwise_map]
    refine (List.pairwise_lt_range _).imp ?_
    intro i j hij
    omega
  · intro hTc
    rw [he]
    have h0 : (T - c).toNat = 0 := by omega
    rw [h0]
    simp

/-! ### Search helpers and claims -/

/-- Generalised accumulator form of the `searchUsers` loop. -/
theorem searchUsers_foldl_general (s : String) :
    ∀ (l : GitlabUsers) (acc : List FoundUser),
      l.foldl
        (fun acc v =>
          if matchesUser s v then
            acc ++ [{ Name := v.Name, ID := v.ID, Username := v.Username, Email := v.Email }]
          else acc)
        acc
        = acc ++ (l.filter (matchesUser s)).map toFoundUser := by
  intro l
  induction l with
  | nil =>
    intro acc
    simp
  | cons x xs ih =>
    intro acc
    by_cases h : matchesUser s x = true
    · simp [List.foldl_cons, List.filter_cons, h, ih, toFoundUser]
    · simp [List.foldl_cons, List.filter_cons, h, ih]

/-- `searchUsers` is the in-order filter of the input by the match
predicate, projected to the printed view. -/
theorem searchUsers_eq_filter_map (s : String) (u : GitlabUsers) :
    searchUsers s u = (u.filter (matchesUser s)).map toFoundUser := by
  rw [searchUsers]
  simpa using searchUsers_foldl_general s u []

/-- Substring containment characterisation of the `strings.Contains`
model: the needle occurs contiguously somewhere in the haystack. -/
theorem listContainsSub_iff (needle : List Char) :
    ∀ hay : List Char, listContainsSub needle hay = true ↔
      ∃ pre post : List Char, hay = pre ++ needle ++ post := by
  intro hay
  induction hay with
  | nil =>
    simp only [listContainsSub, List.isEmpty_iff]
    constructor
    · intro h
      exact ⟨[], [], by simp [h]⟩
    · rintro ⟨pre, post, h⟩
      have hlen := congrArg List.length h
      simp only [List.length_nil, List.length_append] at hlen
      exact List.length_eq_zero.mp (by omega)
  | cons c rest ih =>
    simp only [listContainsSub, Bool.or_eq_true, ih]
    constructor
    · rintro (hpre | ⟨pre, post, h⟩)
      · rw [List.isPrefixOf_iff_prefix] at hpre
        obtain ⟨t, ht⟩ := hpre
        exact ⟨[], t, by simp [ht]⟩
      · exact ⟨c :: pre, post, by simp [h]⟩
    · rintro ⟨pre, post, h⟩
      cases pre with
      | nil =>
        left
        rw [List.isPrefixOf_iff_prefix]
        exact ⟨post, by simpa using h.symm⟩
      | cons p ps =>
        right
        rw [List.cons_append, List.cons_append] at h
        injection h with h1 h2
        exact ⟨ps, post, h2⟩

/-- The tab character always occurs in a printed search row. -/
theorem tab_mem_foundUserRow (f : FoundUser) : '\t' ∈ (foundUserRow f).data := by
  have h : '\t' ∈ (" \t" : String).data := by decide
  rw [foundUserRow]
  simp only [String.data_append, List.mem_append]
  tauto

/-- C3: a user is selected by `searchUsers` (one printed row, in order) if
and only if the needle is a case-sensitive substring of its name, or of its
login handle, or of its primary email, with no normalisation: `searchUsers`
is exactly the in-order filter by that three-way disjunction, and the
containment test means literal occurrence of the needle anywhere in the
field. -/
theorem searchUsers_matches_iff (s : String) (u : GitlabUsers) :
    searchUsers s u =
      (u.filter (fun v => goContains v.Name s || goContains v.Username s || goContains v.Email s)).map
        toFoundUser ∧
    ∀ hay needle : String, goContains hay needle = true ↔
      ∃ pre post : List Char, hay.toList = pre ++ needle.toList ++ post := by
  constructor
  · rw [searchUsers_eq_filter_map]
    rfl
  · intro hay needle
    rw [goContains]
    exact listContainsSub_iff needle.toList hay.toList

/-- C10: `searchUsers` is an order-preserving filter — the identifiers of
the selected rows form a sublist of the input's identifier sequence, and
whenever the input is sorted by identifier the selected rows are sorted by
identifier too.  (The input itself is a value and is never mutated.) -/
theorem searchUsers_order_preserving (s : String) (u : GitlabUsers) :
    ((searchUsers s u).map FoundUser.ID).Sublist (u.map GitlabUser.ID) ∧
    (List.Pairwise (fun a b : GitlabUser => a.ID ≤ b.ID) u →
      List.Pairwise (fun a b : FoundUser => a.ID ≤ b.ID) (searchUsers s u)) := by
  rw [searchUsers_eq_filter_map]
  constructor
  · rw [List.map_map]
    have h1 : (FoundUser.ID ∘ toFoundUser) = GitlabUser.ID := rfl
    rw [h1]
    exact (List.filter_sublist u).map GitlabUser.ID
  · intro hu
    rw [List.pairwise_map]
    exact (List.Pairwise.sublist (List.filter_sublist u) hu).imp (fun h => h)

/-- C7: when no user matches, the search output is exactly the single
fixed "No users found" line and no data rows; when some user matches, the
"No users found" line is not printed. -/
theorem searchUsersOutput_empty_message (s : String) (u : GitlabUsers) :
    ((∀ v ∈ u, matchesUser s v = false) → searchUsersOutput s u = ["No users found"]) ∧
    ((∃ v ∈ u, matchesUser s v = true) → "No users found" ∉ searchUsersOutput s u) := by
  constructor
  · intro hall
    rw [searchUsersOutput, searchUsers_eq_filter_map]
    have hnil : u.filter (matchesUser s) = [] := by
      rw [List.filter_eq_nil_iff]
      intro a ha
      simp [hall a ha]
    rw [hnil]
    simp
  · rintro ⟨v, hv, hmv⟩ hmem
    rw [searchUsersOutput, searchUsers_eq_filter_map] at hmem
    have hne : u.filter (matchesUser s) ≠ [] := by
      intro hnil
      rw [List.filter_eq_nil_iff] at hnil
      exact absurd hmv (by simpa using hnil v hv)
    have hlen : 0 < ((u.filter (matchesUser s)).map toFoundUser).length := by
      simp [List.length_pos_iff_ne_nil, hne]
    simp only [hlen, if_pos] at hmem
    rw [List.mem_map] at hmem
    obtain ⟨f, _, hf⟩ := hmem
    have htab := tab_mem_foundUserRow f
    rw [hf] at htab
    have : ¬ '\t' ∈ ("No users found" : String).data := by decide
    exact this htab

/-! ### Pagination concatenation claim -/

/-- C1: for every token and active-only flag, when the listing endpoint
serves `N` pages — signalled by `X-Page: 1` and `X-Total-Pages: N` on the
first response — `getUsers` returns the concatenation of the pages'
decoded user sequences in page order (page 1 first), so the total user
count is the sum of the per-page counts. -/
theorem getUsers_concatenates_pages (t : String) (a : Bool)
    (server : String → Bool → Int → PageResponse) (N : Nat)
    (hN : 1 ≤ N)
    (hp : goAtoi (server t a 1).xPage = some 1)
    (ht : goAtoi (server t a 1).xTotalPages = some (N : Int)) :
    getUsers t a server =
      some (((List.range N).map (fun i : Nat => (server t a ((i : Int) + 1)).body)).flatten) ∧
    (((List.range N).map (fun i : Nat => (server t a ((i : Int) + 1)).body)).flatten).length =
      ((List.range N).map (fun i : Nat => (server t a ((i : Int) + 1)).body.length)).sum := by
  constructor
  · rw [getUsers]
    simp only [hp, ht]
    congr 1
    rw [getUsersLoop_eq (fun p => (server t a p).body) (N - 1) (server t a 1).body 1 (N : Int)
      (by omega)]
    have hsplit : N = (N - 1) + 1 := by omega
    rw [show (List.range N).map (fun i : Nat => (server t a ((i : Int) + 1)).body) =
        (List.range ((N - 1) + 1)).map (fun i : Nat => (server t a ((i : Int) + 1)).body) from by
      rw [← hsplit]]
    rw [List.range_succ_eq_map]
    have hfun : (fun i : Nat => (server t a ((1 : Int) + 1 + (i : Int))).body) =
        (fun i : Nat => (server t a (((Nat.succ i : Nat) : Int) + 1)).body) := by
      funext i
      congr 2
      push_cast
      ring
    simp only [List.map_cons, List.map_map, List.flatten_cons, Function.comp_def]
    rw [show (fun i : Nat => (server t a (((Nat.succ i : Nat) : Int) + 1)).body) =
        (fun i : Nat => (server t a ((1 : Int) + 1 + (i : Int))).body) from hfun.symm]
    norm_num
  · rw [List.length_flatten, List.map_map]
    rfl

/-! ### Block, create and dispatch claims -/

/-- C2: `blockUser` branches on the exact HTTP status line string of the
block POST — `"201 Created"` reports the user was blocked, `"404 Not
Found"` reports the identifier could not be found, `"403 Forbidden"`
reports the user is already blocked, any other status yields the generic
failure message — and in every branch the raw status line is also
printed. -/
theorem blockUser_status_mapping (u status : String) :
    (status = "201 Created" →
      blockUserOutput u status = ["UserID " ++ u ++ " has been blocked", status]) ∧
    (status = "404 Not Found" →
      blockUserOutput u status = ["ERROR: Unable to find UserID " ++ u, status]) ∧
    (status = "403 Forbidden" →
      blockUserOutput u status = ["ERROR: UserID " ++ u ++ " is already blocked", status]) ∧
    (status ≠ "201 Created" → status ≠ "404 Not Found" → status ≠ "403 Forbidden" →
      blockUserOutput u status =
        ["Error: something went wrong while trying to block UserID " ++ u, status]) ∧
    status ∈ blockUserOutput u status := by
  refine ⟨fun h => ?_, fun h => ?_, fun h => ?_, fun h1 h2 h3 => ?_, ?_⟩
  · subst h
    rfl
  · subst h
    rfl
  · subst h
    rfl
  · rw [blockUserOutput, if_neg h1, if_neg h2, if_neg h3]
  · rw [blockUserOutput]
    by_cases h1 : status = "201 Created"
    · simp [h1]
    · by_cases h2 : status = "404 Not Found"
      · simp [h1, h2]
      · by_cases h3 : status = "403 Forbidden"
        · simp [h1, h2, h3]
        · simp [h1, h2, h3]

/-- C4: in `createUser`, validation runs before any network call: a login
handle failing the letters-only pattern aborts with a fatal error naming
the offending value; with a valid handle, an email longer than 254 bytes
or failing the email pattern aborts with a fatal error naming the
offending value; and the creation POST is issued only when both
validations passed — never in a failure case. -/
theorem createUser_validates_before_post (rawName rawEmail rawUserName : String) :
    (usernameOk (stripNewlines rawUserName) = false →
      createUser rawName rawEmail rawUserName =
        CreateOutcome.fatal ("error: " ++ stripNewlines rawUserName ++ " is not a valid username")) ∧
    (usernameOk (stripNewlines rawUserName) = true →
      ((stripNewlines rawEmail).utf8ByteSize > 254 ∨ emailOk (stripNewlines rawEmail) = false) →
      createUser rawName rawEmail rawUserName =
        CreateOutcome.fatal ("error: " ++ stripNewlines rawEmail ++ " is not a valid email address")) ∧
    (∀ e n un rp, createUser rawName rawEmail rawUserName = CreateOutcome.posted e n un rp →
      usernameOk (stripNewlines rawUserName) = true ∧
      (stripNewlines rawEmail).utf8ByteSize ≤ 254 ∧
      emailOk (stripNewlines rawEmail) = true) := by
  refine ⟨fun h => ?_, fun h1 h2 => ?_, fun e n un rp hpost => ?_⟩
  · rw [createUser]
    simp [h]
  · rw [createUser]
    have hcond : (decide ((stripNewlines rawEmail).utf8ByteSize > 254)
        || !emailOk (stripNewlines rawEmail)) = true := by
      rcases h2 with h2 | h2
      · simp [h2]
      · simp [h2]
    simp [h1, hcond]
  · rw [createUser] at hpost
    by_cases hu : usernameOk (stripNewlines rawUserName) = false
    · simp [hu] at hpost
    · by_cases he : 254 < (stripNewlines rawEmail).utf8ByteSize ∨
          emailOk (stripNewlines rawEmail) = false
      · simp [hu, he] at hpost
      · push_neg at he
        refine ⟨by simpa using hu, by omega, by simpa using he.2⟩

/-- C6: for every combination of flag values, `main` runs exactly one of
the four actions, selected by first-match precedence: non-empty search
text wins, then non-empty block id, then the create flag, then the
default fetch-sort-display action. -/
theorem mainDispatch_precedence (token searchText : String) (create active : Bool) (bu : String) :
    (searchText ≠ "" →
      mainDispatch token searchText create active bu = Action.searchAction token active searchText) ∧
    (searchText = "" → bu ≠ "" →
      mainDispatch token searchText create active bu = Action.blockAction token bu) ∧
    (searchText = "" → bu = "" → create = true →
      mainDispatch token searchText create active bu = Action.createAction token) ∧
    (searchText = "" → bu = "" → create = false →
      mainDispatch token searchText create active bu = Action.listAction token active) := by
  refine ⟨fun h => ?_, fun h1 h2 => ?_, fun h1 h2 h3 => ?_, fun h1 h2 h3 => ?_⟩ <;>
    simp_all [mainDispatch]

/-! ### Concrete instantiations -/

/-- Concrete instantiation of the pagination claim on the two-page sample
endpoint. -/
theorem getUsers_concatenates_pages_witness :
    (1 ≤ 2 ∧ goAtoi (sampleServer "tok" true 1).xPage = some 1 ∧
      goAtoi (sampleServer "tok" true 1).xTotalPages = some ((2 : Nat) : Int)) ∧
    getUsers "tok" true sampleServer =
      some (((List.range 2).map
        (fun i : Nat => (sampleServer "tok" true ((i : Int) + 1)).body)).flatten) :=
  ⟨⟨by norm_num, by decide, by decide⟩,
    (getUsers_concatenates_pages "tok" true sampleServer 2 (by norm_num)
      (by decide) (by decide)).1⟩

/-- Concrete instantiation of the block status mapping on the not-found
branch. -/
theorem blockUser_status_mapping_witness :
    ("404 Not Found" : String) = "404 Not Found" ∧
    blockUserOutput "7" "404 Not Found" =
      ["ERROR: Unable to find UserID " ++ "7", "404 Not Found"] :=
  ⟨rfl, (blockUser_status_mapping "7" "404 Not Found").2.1 rfl⟩

/-- Concrete instantiation of the search claim: the needle "smith" occurs
inside the email address "jane.smith@x.com". -/
theorem searchUsers_matches_iff_witness :
    goContains "jane.smith@x.com" "smith" = true :=
  ((searchUsers_matches_iff "smith" []).2 "jane.smith@x.com" "smith").mpr
    ⟨"jane.".toList, "@x.com".toList, by decide⟩

/-- Concrete instantiation of the create-validation claim: the handle
"bob1" is rejected with a fatal error naming it. -/
theorem createUser_validates_before_post_witness :
    usernameOk (stripNewlines "bob1\n") = false ∧
    createUser "Bob Smith\n" "bob@example.com\n" "bob1\n" =
      CreateOutcome.fatal ("error: " ++ stripNewlines "bob1\n" ++ " is not a valid username") :=
  ⟨by decide,
    (createUser_validates_before_post "Bob Smith\n" "bob@example.com\n" "bob1\n").1 (by decide)⟩

/-- Concrete instantiation of the dispatch precedence claim: with empty
search text, a non-empty block id beats the create flag. -/
theorem mainDispatch_precedence_witness :
    ("" : String) = "" ∧ ("5" : String) ≠ "" ∧
    mainDispatch "tok" "" true true "5" = Action.blockAction "tok" "5" :=
  ⟨rfl, by decide, (mainDispatch_precedence "tok" "" true true "5").2.1 rfl (by decide)⟩

/-- Concrete instantiation of the no-users-found claim: a matching user
suppresses the fixed message. -/
theorem searchUsersOutput_empty_message_witness :
    (∃ v ∈ sampleUsers, matchesUser "smith" v = true) ∧
    "No users found" ∉ searchUsersOutput "smith" sampleUsers :=
  ⟨by decide, (searchUsersOutput_empty_message "smith" sampleUsers).2 (by decide)⟩

/-- Concrete instantiation of the request-count claim: equal page counters
issue no additional request. -/
theorem getUsersLoop_request_count_witness :
    (3 : Int) ≤ 3 ∧ getUsersLoopPages 3 3 = [] :=
  ⟨by norm_num, (getUsersLoop_request_count 3 3).2.2 (by norm_num)⟩

/-- Concrete instantiation of the order-preservation claim on a sorted
sample collection. -/
theorem searchUsers_order_preserving_witness :
    List.Pairwise (fun a b : GitlabUser => a.ID ≤ b.ID) sampleUsers ∧
    List.Pairwise (fun a b : FoundUser => a.ID ≤ b.ID) (searchUsers "e" sampleUsers) :=
  ⟨by decide, (searchUsers_order_preserving "e" sampleUsers).2 (by decide)⟩

end Glu
